import Mathlib

/-!
Verification of the polymarket-copy-bot decision pipeline.

Shallow embedding of the Rust sources under `src/`:
`f64` amounts and prices are modelled as `ℚ` (exact arithmetic),
`HashMap` as association lists whose operations touch the first
entry with a given key (keys stay unique for maps built by these
operations, so the semantics agree), `Option`-returning fallible
calls as `Option`, and the external order-placement API as an
oracle function supplied to the trading functions.  Timestamp
fields that no logic reads (`Position.timestamp`,
`ArbitrageOpportunity.timestamp`/`expiry_time`) are omitted;
where a timestamp default is taken (`parse_trade`), the clock is
passed as an explicit `now` argument.
-/

namespace CopyBot

/-- From `src/src/config.rs`: `RiskConfig`. -/
structure RiskConfig where
  max_total_exposure_usd : ℚ
  max_position_per_market_usd : ℚ
  max_daily_loss_usd : ℚ
  enable_auto_hedge : Bool
  min_balance_usd : ℚ
deriving DecidableEq

/-- From `src/src/config.rs`: `ArbitrageConfig`. -/
structure ArbitrageConfig where
  min_arb_profit_pct : ℚ
  max_arb_profit_pct : ℚ
  internal_arb_enabled : Bool
  cross_platform_enabled : Bool
  min_liquidity_usd : ℚ
  max_slippage_pct : ℚ
deriving DecidableEq

/-- From `src/src/config.rs`: `WalletConfig`. -/
structure WalletConfig where
  address : String
  name : String
  enabled : Bool
  min_win_rate : ℚ
  max_position_size_usd : ℚ
  position_size_multiplier : ℚ
  markets_filter : Option (List String)
  require_arb_signal : Bool
deriving DecidableEq

/-- From `src/src/risk_manager.rs`: `Position` (the `timestamp`
field is omitted: no operation reads it). -/
structure Position where
  market_id : String
  outcome : String
  side : String
  size_usd : ℚ
  entry_price : ℚ
deriving DecidableEq

/-- From `src/src/risk_manager.rs`: the `RiskManager` state.
`positions` embeds `HashMap<String, Vec<Position>>` as an
association list.  `last_reset_date` is replaced by passing a
`newDay` flag to `get_exposure`. -/
structure RiskManager where
  config : RiskConfig
  positions : List (String × List Position)
  total_exposure : ℚ
  daily_pnl : ℚ
deriving DecidableEq

/-- `RiskManager::new`. -/
def RiskManager.new (config : RiskConfig) : RiskManager :=
  { config := config, positions := [], total_exposure := 0, daily_pnl := 0 }

/-- `HashMap::get` on the embedded position map. -/
def lookupVec (market_id : String) : List (String × List Position) → Option (List Position)
  | [] => none
  | (k, v) :: rest => if k = market_id then some v else lookupVec market_id rest

/-- The per-market exposure summed inside `can_open_position`:
`positions.get(market_id).unwrap_or(&[]).iter().map(|p| p.size_usd).sum()`. -/
def marketExposure (rm : RiskManager) (market_id : String) : ℚ :=
  (((lookupVec market_id rm.positions).getD []).map Position.size_usd).sum

/-- `RiskManager::can_open_position` (src/src/risk_manager.rs lines 43-79). -/
def can_open_position (rm : RiskManager) (market_id : String) (size_usd : ℚ) : Bool :=
  if rm.daily_pnl ≤ -rm.config.max_daily_loss_usd then
    false
  else if rm.total_exposure + size_usd > rm.config.max_total_exposure_usd then
    false
  else if marketExposure rm market_id + size_usd > rm.config.max_position_per_market_usd then
    false
  else
    true

/-- `record_position`'s map update: ensure the key exists, then push
the new position onto its vector (`Vec::push` appends). -/
def recordIn (market_id : String) (pos : Position) :
    List (String × List Position) → List (String × List Position)
  | [] => [(market_id, [pos])]
  | (k, v) :: rest =>
      if k = market_id then (k, v ++ [pos]) :: rest
      else (k, v) :: recordIn market_id pos rest

/-- `RiskManager::record_position` (src/src/risk_manager.rs lines 81-111). -/
def record_position (rm : RiskManager) (market_id : String) (size_usd : ℚ)
    (outcome side : String) (entry_price : Option ℚ) : RiskManager :=
  let position : Position :=
    { market_id := market_id, outcome := outcome, side := side,
      size_usd := size_usd, entry_price := entry_price.getD 0 }
  { rm with
    positions := recordIn market_id position rm.positions,
    total_exposure := rm.total_exposure + size_usd }

/-- `positions.iter().position(|p| p.outcome == outcome && p.side == "buy")`
followed by `Vec::remove` at that index: first matching element and
the remaining vector. -/
def removeFirstMatch (outcome : String) : List Position → Option (Position × List Position)
  | [] => none
  | p :: rest =>
      if p.outcome = outcome ∧ p.side = "buy" then some (p, rest)
      else (removeFirstMatch outcome rest).map (fun q => (q.1, p :: q.2))

/-- Writing back the shrunk vector for a key (`get_mut` mutation). -/
def setVec (market_id : String) (newVec : List Position) :
    List (String × List Position) → List (String × List Position)
  | [] => []
  | (k, v) :: rest =>
      if k = market_id then (k, newVec) :: rest
      else (k, v) :: setVec market_id newVec rest

/-- `RiskManager::close_position` (src/src/risk_manager.rs lines 113-149).
Returns the `Option<f64>` result together with the updated state
(`none` leaves the state unchanged, as the early `?` returns do). -/
def close_position (rm : RiskManager) (market_id outcome : String)
    (exit_price : Option ℚ) : Option ℚ × RiskManager :=
  match lookupVec market_id rm.positions with
  | none => (none, rm)
  | some vec =>
    match removeFirstMatch outcome vec with
    | none => (none, rm)
    | some (position, rest) =>
      let pnl : ℚ :=
        match exit_price with
        | some ep =>
            if position.entry_price > 0 then
              (ep - position.entry_price) * position.size_usd / position.entry_price
            else 0
        | none => 0
      (some pnl,
        { rm with
          positions := setVec market_id rest rm.positions,
          total_exposure := rm.total_exposure - position.size_usd,
          daily_pnl := rm.daily_pnl + pnl })

/-- From `src/src/risk_manager.rs`: `ExposureMetrics`.  The market
exposure map is kept as an association list in map iteration order. -/
structure ExposureMetrics where
  total_exposure_usd : ℚ
  daily_pnl_usd : ℚ
  open_positions : Nat
  market_exposures : List (String × ℚ)
  available_exposure : ℚ
deriving DecidableEq

/-- `RiskManager::get_exposure` (src/src/risk_manager.rs lines 151-177).
`newDay` stands for `Utc::now().date_naive() != last_reset_date`. -/
def get_exposure (newDay : Bool) (rm : RiskManager) : ExposureMetrics × RiskManager :=
  let rm' := if newDay then { rm with daily_pnl := 0 } else rm
  ({ total_exposure_usd := rm'.total_exposure,
     daily_pnl_usd := rm'.daily_pnl,
     open_positions := (rm'.positions.map (fun e => e.2.length)).sum,
     market_exposures :=
       rm'.positions.map (fun e => (e.1, (e.2.map Position.size_usd).sum)),
     available_exposure := rm'.config.max_total_exposure_usd - rm'.total_exposure },
   rm')

/-- Total recorded stake: the sum of `size_usd` over every stored position. -/
def positionsSum (ps : List (String × List Position)) : ℚ :=
  (ps.map (fun e => (e.2.map Position.size_usd).sum)).sum

/-- States of the Risk Ledger reachable from a fresh `RiskManager`
by any sequence of `record_position` / `close_position` calls. -/
inductive RiskReachable (cfg : RiskConfig) : RiskManager → Prop
  | init : RiskReachable cfg (RiskManager.new cfg)
  | record (rm : RiskManager) (market_id : String) (size_usd : ℚ)
      (outcome side : String) (entry_price : Option ℚ) :
      RiskReachable cfg rm →
      RiskReachable cfg (record_position rm market_id size_usd outcome side entry_price)
  | close (rm : RiskManager) (market_id outcome : String) (exit_price : Option ℚ) :
      RiskReachable cfg rm →
      RiskReachable cfg (close_position rm market_id outcome exit_price).2

/-- From `src/src/arbitrage_detector.rs`: `ArbitrageOpportunity`
(the `timestamp` and `expiry_time` fields are omitted: no logic
reads them; `expiry_time` is always `None`). -/
structure ArbitrageOpportunity where
  market_id : String
  market_question : String
  opportunity_type : String
  yes_price : ℚ
  no_price : ℚ
  total_cost : ℚ
  profit_pct : ℚ
  profit_usd : ℚ
  liquidity_yes : ℚ
  liquidity_no : ℚ
deriving DecidableEq

/-- One ask level of an order book, as consumed by `get_best_ask`:
a (parsed) price and an optional numeric size (`size` may be
missing from the JSON, in which case liquidity uses `0.0`). -/
structure Ask where
  price : ℚ
  size : Option ℚ
deriving DecidableEq

/-- The slice of the order-book JSON that the detector reads:
`outcomes.YES.asks`, `outcomes.NO.asks` and the optional
`market.question` string. -/
structure OrderBook where
  yes_asks : List Ask
  no_asks : List Ask
  market_question : Option String
deriving DecidableEq

/-- `ArbitrageDetector::get_best_ask` restricted to one outcome's ask
list: stable-sort by ascending price and take the head, i.e. the
earliest ask of minimal price. -/
def get_best_ask : List Ask → Option Ask
  | [] => none
  | a :: rest => some (rest.foldl (fun best x => if x.price < best.price then x else best) a)

/-- `ArbitrageDetector::detect_internal_arbitrage`
(src/src/arbitrage_detector.rs lines 62-119). -/
def detect_internal_arbitrage (market_id : String) (order_book : OrderBook) :
    Option ArbitrageOpportunity :=
  match get_best_ask order_book.yes_asks, get_best_ask order_book.no_asks with
  | some yes_best_ask, some no_best_ask =>
    let yes_price := yes_best_ask.price
    let no_price := no_best_ask.price
    let total_cost := yes_price + no_price
    let fee_adjusted_cost := total_cost * (101 / 100)
    if fee_adjusted_cost < 99 / 100 then
      let profit_pct := (1 - fee_adjusted_cost) / fee_adjusted_cost
      let liquidity_yes := (yes_best_ask.size.getD 0) * yes_price
      let liquidity_no := (no_best_ask.size.getD 0) * no_price
      let profit_usd := profit_pct * 1
      some
        { market_id := market_id,
          market_question := order_book.market_question.getD market_id,
          opportunity_type := "internal",
          yes_price := yes_price, no_price := no_price,
          total_cost := total_cost,
          profit_pct := profit_pct, profit_usd := profit_usd,
          liquidity_yes := liquidity_yes, liquidity_no := liquidity_no }
    else none
  | _, _ => none

/-- `ArbitrageDetector::detect_cross_platform_arbitrage`: a stub that
always yields `None` (src/src/arbitrage_detector.rs lines 121-132). -/
def detect_cross_platform_arbitrage (_market_id : String) (_order_book : OrderBook) :
    Option ArbitrageOpportunity :=
  none

/-- `ArbitrageDetector::is_valid` (src/src/arbitrage_detector.rs lines 178-192). -/
def is_valid (config : ArbitrageConfig) (opp : ArbitrageOpportunity) : Bool :=
  if opp.profit_pct < config.min_arb_profit_pct then false
  else if opp.profit_pct > config.max_arb_profit_pct then false
  else if opp.liquidity_yes < config.min_liquidity_usd then false
  else if opp.liquidity_no < config.min_liquidity_usd then false
  else true

/-- `ArbitrageDetector::scan_market` (src/src/arbitrage_detector.rs
lines 37-60); the fetched order book (`get_order_book` result) is
passed in as `order_book?`. -/
def scan_market (config : ArbitrageConfig) (market_id : String)
    (order_book? : Option OrderBook) : Option ArbitrageOpportunity :=
  match order_book? with
  | none => none
  | some order_book =>
    let internal : Option ArbitrageOpportunity :=
      if config.internal_arb_enabled then
        match detect_internal_arbitrage market_id order_book with
        | some opp => if is_valid config opp then some opp else none
        | none => none
      else none
    match internal with
    | some opp => some opp
    | none =>
      if config.cross_platform_enabled then
        match detect_cross_platform_arbitrage market_id order_book with
        | some opp => if is_valid config opp then some opp else none
        | none => none
      else none

/-- From `src/src/arbitrage_detector.rs`: the detector state, with
`active_opportunities : HashMap<String, ArbitrageOpportunity>`
embedded as an association list. -/
structure ArbitrageDetector where
  config : ArbitrageConfig
  active_opportunities : List (String × ArbitrageOpportunity)
deriving DecidableEq

/-- `HashMap::get` on the opportunity map. -/
def lookupOpp (market_id : String) :
    List (String × ArbitrageOpportunity) → Option ArbitrageOpportunity
  | [] => none
  | (k, v) :: rest => if k = market_id then some v else lookupOpp market_id rest

/-- `HashMap::insert` on the opportunity map (replaces the entry). -/
def insertOpp (market_id : String) (opp : ArbitrageOpportunity) :
    List (String × ArbitrageOpportunity) → List (String × ArbitrageOpportunity)
  | [] => [(market_id, opp)]
  | (k, v) :: rest =>
      if k = market_id then (k, opp) :: rest
      else (k, v) :: insertOpp market_id opp rest

/-- `ArbitrageDetector::get_opportunity` (src/src/arbitrage_detector.rs
lines 167-169): a plain map lookup (clone). -/
def get_opportunity (d : ArbitrageDetector) (market_id : String) :
    Option ArbitrageOpportunity :=
  lookupOpp market_id d.active_opportunities

/-- `ArbitrageDetector::has_opportunity` (src/src/arbitrage_detector.rs
lines 171-176): map lookup re-checked through `is_valid`. -/
def has_opportunity (d : ArbitrageDetector) (market_id : String) : Bool :=
  ((lookupOpp market_id d.active_opportunities).map (is_valid d.config)).getD false

/-- `ArbitrageDetector::scan_markets` (src/src/arbitrage_detector.rs
lines 154-165): scan each id, collect the found opportunities and
insert each into the retained map; `books` supplies the order book
each `get_order_book` call would fetch. -/
def scan_markets (books : String → Option OrderBook) (d : ArbitrageDetector) :
    List String → ArbitrageDetector × List ArbitrageOpportunity
  | [] => (d, [])
  | market_id :: rest =>
    match scan_market d.config market_id (books market_id) with
    | some opp =>
        let d' : ArbitrageDetector :=
          { d with active_opportunities := insertOpp market_id opp d.active_opportunities }
        let r := scan_markets books d' rest
        (r.1, opp :: r.2)
    | none => scan_markets books d rest

/-- From `src/src/wallet_monitor.rs`: `WalletTrade`.  The RFC-3339
timestamp is modelled as an integer instant. -/
structure WalletTrade where
  wallet_address : String
  wallet_name : String
  market_id : String
  market_question : String
  outcome : String
  side : String
  price : ℚ
  size : ℚ
  size_usd : ℚ
  timestamp : Int
  tx_hash : Option String
deriving DecidableEq

/-- A raw trade record as consumed by `WalletMonitor::parse_trade`:
each JSON field is `none` when missing or of the wrong type
(`as_str` / `as_f64` / RFC-3339 parse failure). -/
structure RawTradeRecord where
  marketId : Option String
  question : Option String
  outcome : Option String
  side : Option String
  price : Option ℚ
  size : Option ℚ
  timestamp : Option Int
  txHash : Option String
deriving DecidableEq

/-- Rust's `str::to_uppercase`, character-wise (the fields compared
against are ASCII). -/
def strToUpper (s : String) : String := String.mk (s.data.map Char.toUpper)

/-- Rust's `str::to_lowercase`, character-wise. -/
def strToLower (s : String) : String := String.mk (s.data.map Char.toLower)

/-- `WalletMonitor::parse_trade` (src/src/wallet_monitor.rs lines
170-238).  `now` stands for the `Utc::now()` fallback taken when the
timestamp field is absent or unparsable. -/
def parse_trade (config : WalletConfig) (now : Int) (trade_data : RawTradeRecord) :
    Option WalletTrade :=
  match trade_data.marketId with
  | none => none
  | some market_id =>
    let market_question := trade_data.question.getD ""
    let outcome := strToUpper (trade_data.outcome.getD "YES")
    let side := strToLower (trade_data.side.getD "buy")
    let price := trade_data.price.getD 0
    let size := trade_data.size.getD 0
    let size_usd := size * price
    let timestamp := trade_data.timestamp.getD now
    let tx_hash := trade_data.txHash
    if ¬ (outcome = "YES" ∨ outcome = "NO") ∨ ¬ (side = "buy" ∨ side = "sell") ∨ price ≤ 0 then
      none
    else
      some
        { wallet_address := config.address, wallet_name := config.name,
          market_id := market_id, market_question := market_question,
          outcome := outcome, side := side,
          price := price, size := size, size_usd := size_usd,
          timestamp := timestamp, tx_hash := tx_hash }

/-- An order-placement request, i.e. the argument tuple of
`OrderExecutor::place_order`. -/
structure OrderReq where
  market_id : String
  outcome : String
  side : String
  price : ℚ
  size : ℚ
deriving DecidableEq

/-- From `src/src/order_executor.rs`: the fields of a placed `Order`
that the copy trader reads back (`order_id`). -/
structure Order where
  order_id : String
deriving DecidableEq

/-- The side effects a trading call produces on the Order Executor:
the sequence of `place_order` calls made and the order ids passed to
`cancel_order`. -/
structure TradeEffects where
  placements : List OrderReq
  cancels : List String
deriving DecidableEq

/-- No executor interaction. -/
def TradeEffects.none : TradeEffects := { placements := [], cancels := [] }

/-- Outcome of `execute_copy_trade` / `execute_arbitrage_trade`:
the returned `bool`, the Risk Ledger afterwards, and the executor
side effects. -/
structure TradeOutcome where
  success : Bool
  risk : RiskManager
  effects : TradeEffects
deriving DecidableEq

/-- The placement oracle: what `OrderExecutor::place_order` returns
for a given request (`none` = placement failed). -/
def Exec : Type := OrderReq → Option Order

/-- The YES-leg request built by `execute_arbitrage_trade`. -/
def yesLegReq (arb_opp : ArbitrageOpportunity) (position_size_usd : ℚ) : OrderReq :=
  { market_id := arb_opp.market_id, outcome := "YES", side := "buy",
    price := arb_opp.yes_price, size := position_size_usd * (1 / 2) / arb_opp.yes_price }

/-- The NO-leg request built by `execute_arbitrage_trade`. -/
def noLegReq (arb_opp : ArbitrageOpportunity) (position_size_usd : ℚ) : OrderReq :=
  { market_id := arb_opp.market_id, outcome := "NO", side := "buy",
    price := arb_opp.no_price, size := position_size_usd * (1 / 2) / arb_opp.no_price }

/-- `CopyTrader::execute_arbitrage_trade` (src/src/copy_trader.rs
lines 202-266): place both half-size legs; on double success record
both positions, otherwise cancel whichever leg succeeded and leave
the ledger untouched. -/
def execute_arbitrage_trade (exec : Exec) (rm : RiskManager)
    (arb_opp : ArbitrageOpportunity) (position_size_usd : ℚ) : TradeOutcome :=
  let yes_size_usd := position_size_usd * (1 / 2)
  let no_size_usd := position_size_usd * (1 / 2)
  let yesReq := yesLegReq arb_opp position_size_usd
  let noReq := noLegReq arb_opp position_size_usd
  let yes_order := exec yesReq
  let no_order := exec noReq
  if yes_order.isSome ∧ no_order.isSome then
    let rm1 := record_position rm arb_opp.market_id yes_size_usd "YES" "buy"
      (some arb_opp.yes_price)
    let rm2 := record_position rm1 arb_opp.market_id no_size_usd "NO" "buy"
      (some arb_opp.no_price)
    { success := true, risk := rm2,
      effects := { placements := [yesReq, noReq], cancels := [] } }
  else
    let cancels :=
      (match yes_order with | some o => [o.order_id] | none => []) ++
      (match no_order with | some o => [o.order_id] | none => [])
    { success := false, risk := rm,
      effects := { placements := [yesReq, noReq], cancels := cancels } }

/-- From `src/src/copy_trader.rs`: the per-wallet trader state that
the claims read: its config and the dedup key set (the map's
timestamp values are never read). -/
structure CopyTrader where
  config : WalletConfig
  copied_trades : List String
deriving DecidableEq

/-- The dedup key built at the top of `process_trade`:
`"{tx_hash|''}_{market_id}_{outcome}_{side}"`. -/
def trade_key (trade : WalletTrade) : String :=
  (trade.tx_hash.getD "") ++ "_" ++ trade.market_id ++ "_" ++ trade.outcome ++ "_" ++ trade.side

/-- `CopyTrader::should_copy_wallet`. -/
def should_copy_wallet (ct : CopyTrader) (_trade : WalletTrade) : Bool :=
  ct.config.enabled

/-- The market-filter gate of `process_trade`: with a filter
configured, the trade's market must be in it. -/
def passes_markets_filter (ct : CopyTrader) (trade : WalletTrade) : Bool :=
  match ct.config.markets_filter with
  | some filter => decide (trade.market_id ∈ filter)
  | none => true

/-- The arbitrage-signal gate of `process_trade`: blocks when the arb
signal is required and `has_opportunity` denies it. -/
def arb_signal_blocks (ct : CopyTrader) (detector : ArbitrageDetector)
    (trade : WalletTrade) : Bool :=
  ct.config.require_arb_signal && !(has_opportunity detector trade.market_id)

/-- `CopyTrader::calculate_position_size` (src/src/copy_trader.rs
lines 140-151). -/
def calculate_position_size (ct : CopyTrader) (trade : WalletTrade) : ℚ :=
  let base_size := trade.size_usd
  let scaled_size := base_size * ct.config.position_size_multiplier
  let final_size := min scaled_size ct.config.max_position_size_usd
  if final_size < 10 then 0 else final_size

/-- `CopyTrader::execute_copy_trade` (src/src/copy_trader.rs lines
153-200): route to the two-leg arbitrage path when an internal
opportunity is retained and the arb signal is required, otherwise
place the single directional order and record the position on
success. -/
def execute_copy_trade (exec : Exec) (detector : ArbitrageDetector) (rm : RiskManager)
    (ct : CopyTrader) (trade : WalletTrade) (position_size_usd : ℚ) : TradeOutcome :=
  let shares := position_size_usd / trade.price
  let arbPath : Option ArbitrageOpportunity :=
    if ct.config.require_arb_signal then
      match get_opportunity detector trade.market_id with
      | some opp => if opp.opportunity_type = "internal" then some opp else none
      | none => none
    else none
  match arbPath with
  | some opp => execute_arbitrage_trade exec rm opp position_size_usd
  | none =>
    let req : OrderReq :=
      { market_id := trade.market_id, outcome := trade.outcome, side := trade.side,
        price := trade.price, size := shares }
    match exec req with
    | some _ =>
        { success := true,
          risk := record_position rm trade.market_id position_size_usd trade.outcome
            trade.side (some trade.price),
          effects := { placements := [req], cancels := [] } }
    | none => { success := false, risk := rm, effects := { placements := [req], cancels := [] } }

/-- Result of one `process_trade` delivery. -/
structure ProcessResult where
  success : Bool
  trader : CopyTrader
  risk : RiskManager
  effects : TradeEffects
deriving DecidableEq

/-- `CopyTrader::process_trade` (src/src/copy_trader.rs lines 33-133):
dedup gate, wallet-enabled gate, market filter, optional arbitrage
signal gate, sizing, risk gate, execution; on success the dedup key
is inserted. -/
def process_trade (exec : Exec) (detector : ArbitrageDetector) (rm : RiskManager)
    (ct : CopyTrader) (trade : WalletTrade) : ProcessResult :=
  let key := trade_key trade
  if key ∈ ct.copied_trades then
    { success := false, trader := ct, risk := rm, effects := TradeEffects.none }
  else if should_copy_wallet ct trade = false then
    { success := false, trader := ct, risk := rm, effects := TradeEffects.none }
  else if passes_markets_filter ct trade = false then
    { success := false, trader := ct, risk := rm, effects := TradeEffects.none }
  else if arb_signal_blocks ct detector trade = true then
    { success := false, trader := ct, risk := rm, effects := TradeEffects.none }
  else
    let position_size_usd := calculate_position_size ct trade
    if position_size_usd ≤ 0 then
      { success := false, trader := ct, risk := rm, effects := TradeEffects.none }
    else if can_open_position rm trade.market_id position_size_usd = false then
      { success := false, trader := ct, risk := rm, effects := TradeEffects.none }
    else
      let r := execute_copy_trade exec detector rm ct trade position_size_usd
      if r.success = true then
        { success := true, trader := { ct with copied_trades := key :: ct.copied_trades },
          risk := r.risk, effects := r.effects }
      else
        { success := false, trader := ct, risk := r.risk, effects := r.effects }

/-! ## Helper lemmas about the Risk Ledger -/

theorem positionsSum_nil : positionsSum [] = 0 := rfl

theorem positionsSum_cons (e : String × List Position) (ps : List (String × List Position)) :
    positionsSum (e :: ps) = (e.2.map Position.size_usd).sum + positionsSum ps := by
  simp [positionsSum]

theorem positionsSum_recordIn (market_id : String) (pos : Position)
    (ps : List (String × List Position)) :
    positionsSum (recordIn market_id pos ps) = positionsSum ps + pos.size_usd := by
  induction ps with
  | nil => simp [recordIn, positionsSum]
  | cons e rest ih =>
    obtain ⟨k, v⟩ := e
    by_cases h : k = market_id
    · simp [recordIn, h, positionsSum_cons]
      ring
    · simp [recordIn, h, positionsSum_cons, ih]
      ring

theorem removeFirstMatch_sum (outcome : String) (vec : List Position)
    (p : Position) (rest : List Position)
    (h : removeFirstMatch outcome vec = some (p, rest)) :
    (vec.map Position.size_usd).sum = p.size_usd + (rest.map Position.size_usd).sum := by
  induction vec generalizing rest with
  | nil => simp [removeFirstMatch] at h
  | cons q tail ih =>
    by_cases hq : q.outcome = outcome ∧ q.side = "buy"
    · simp [removeFirstMatch, hq] at h
      obtain ⟨hp, hrest⟩ := h
      subst hp; subst hrest
      simp
    · simp [removeFirstMatch, hq] at h
      obtain ⟨r2, hr2, hp, hr2p, hrest⟩ := h
      subst hrest
      subst hr2p
      have := ih hr2 hp
      simp [this]
      ring

theorem positionsSum_setVec (market_id : String) (newVec vec : List Position)
    (ps : List (String × List Position)) (h : lookupVec market_id ps = some vec) :
    positionsSum (setVec market_id newVec ps) =
      positionsSum ps - (vec.map Position.size_usd).sum + (newVec.map Position.size_usd).sum := by
  induction ps with
  | nil => simp [lookupVec] at h
  | cons e rest ih =>
    obtain ⟨k, v⟩ := e
    by_cases hk : k = market_id
    · simp [lookupVec, hk] at h
      subst h
      simp [setVec, hk, positionsSum_cons]
      ring
    · simp [lookupVec, hk] at h
      simp [setVec, hk, positionsSum_cons, ih h]
      ring

theorem lookupVec_recordIn_self (market_id : String) (pos : Position)
    (ps : List (String × List Position)) :
    lookupVec market_id (recordIn market_id pos ps) =
      some ((lookupVec market_id ps).getD [] ++ [pos]) := by
  induction ps with
  | nil => simp [recordIn, lookupVec]
  | cons e rest ih =>
    obtain ⟨k, v⟩ := e
    by_cases hk : k = market_id
    · simp [recordIn, hk, lookupVec]
    · simp [recordIn, hk, lookupVec, ih]

theorem removeFirstMatch_append_last (outcome : String) (vec : List Position) (pos : Position)
    (hnone : ∀ p ∈ vec, ¬ (p.outcome = outcome ∧ p.side = "buy"))
    (hmatch : pos.outcome = outcome ∧ pos.side = "buy") :
    removeFirstMatch outcome (vec ++ [pos]) = some (pos, vec) := by
  induction vec with
  | nil => simp [removeFirstMatch, hmatch]
  | cons q tail ih =>
    have hq : ¬ (q.outcome = outcome ∧ q.side = "buy") := hnone q (by simp)
    have htail : ∀ p ∈ tail, ¬ (p.outcome = outcome ∧ p.side = "buy") := by
      intro p hp; exact hnone p (by simp [hp])
    simp [removeFirstMatch, hq, ih htail]

/-! ## Claim C2 -/

/-- The concrete risk configuration of the C2 scenario:
`max_total_exposure_usd = 1000`, generous per-market and daily caps. -/
def scenarioRiskConfig : RiskConfig :=
  { max_total_exposure_usd := 1000, max_position_per_market_usd := 2000,
    max_daily_loss_usd := 500, enable_auto_hedge := true, min_balance_usd := 100 }

/-- A ledger with existing total exposure 900 (held in another
market), no daily loss. -/
def scenarioRM : RiskManager :=
  { config := scenarioRiskConfig,
    positions := [("other",
      [{ market_id := "other", outcome := "YES", side := "buy",
         size_usd := 900, entry_price := 1 / 2 }])],
    total_exposure := 900, daily_pnl := 0 }

/-- Claim C2: `can_open_position` returns true iff the daily-loss cap,
the total-exposure cap and the per-market cap all pass (each failing
branch returns false, so the conjunction is exactly the returned
value); in the concrete scenario with `max_total_exposure_usd = 1000`
and existing exposure 900, size 150 is refused and size 90 allowed. -/
theorem claim_C2 :
    (∀ (rm : RiskManager) (market_id : String) (size_usd : ℚ),
      can_open_position rm market_id size_usd = true ↔
        ¬ rm.daily_pnl ≤ -rm.config.max_daily_loss_usd ∧
        rm.total_exposure + size_usd ≤ rm.config.max_total_exposure_usd ∧
        marketExposure rm market_id + size_usd ≤ rm.config.max_position_per_market_usd) ∧
    can_open_position scenarioRM "mkt" 150 = false ∧
    can_open_position scenarioRM "mkt" 90 = true := by
  refine ⟨fun rm market_id size_usd => ?_, ?_, ?_⟩
  · by_cases h1 : rm.daily_pnl ≤ -rm.config.max_daily_loss_usd
    · simp [can_open_position, h1]
    · by_cases h2 : rm.total_exposure + size_usd > rm.config.max_total_exposure_usd
      · have h2' : ¬ rm.total_exposure + size_usd ≤ rm.config.max_total_exposure_usd :=
          not_le.mpr h2
        simp [can_open_position, h1, h2, h2']
      · by_cases h3 : marketExposure rm market_id + size_usd >
            rm.config.max_position_per_market_usd
        · have h3' : ¬ marketExposure rm market_id + size_usd ≤
              rm.config.max_position_per_market_usd := not_le.mpr h3
          simp [can_open_position, h1, h2, h3, h3']
        · have h2' := le_of_not_lt h2
          have h3' := le_of_not_lt h3
          simp [can_open_position, h1, h2, h3, h2', h3']
  · have hgt : scenarioRM.total_exposure + 150 > scenarioRM.config.max_total_exposure_usd := by
      norm_num [scenarioRM, scenarioRiskConfig]
    have hd : ¬ scenarioRM.daily_pnl ≤ -scenarioRM.config.max_daily_loss_usd := by
      norm_num [scenarioRM, scenarioRiskConfig]
    simp [can_open_position, hd, hgt]
  · have hd : ¬ scenarioRM.daily_pnl ≤ -scenarioRM.config.max_daily_loss_usd := by
      norm_num [scenarioRM, scenarioRiskConfig]
    have h2 : ¬ scenarioRM.total_exposure + 90 > scenarioRM.config.max_total_exposure_usd := by
      norm_num [scenarioRM, scenarioRiskConfig]
    have h3 : ¬ marketExposure scenarioRM "mkt" + 90 >
        scenarioRM.config.max_position_per_market_usd := by
      have hne : ("other" : String) = "mkt" ↔ False := by
        simp
      norm_num [marketExposure, scenarioRM, scenarioRiskConfig, lookupVec, hne]
    simp [can_open_position, hd, h2, h3]

/-! ## Claim C8 -/

/-- Claim C8 (amended): starting from a ledger whose vector for
`market_id` holds no open "buy" position for `outcome`,
`record_position` with side "buy" followed by `close_position` at
`exit_price = entry_price` yields `pnl = some 0`, leaves the daily
PnL accumulator unchanged and restores the total exposure.  (The
freshness hypothesis is forced: `close_position` pops the first
matching position, so a pre-existing match would be closed instead
of the newly recorded one.) -/
theorem claim_C8 (rm : RiskManager) (market_id outcome : String) (size_usd entry : ℚ)
    (hfresh : ∀ p ∈ (lookupVec market_id rm.positions).getD [],
      ¬ (p.outcome = outcome ∧ p.side = "buy")) :
    (close_position (record_position rm market_id size_usd outcome "buy" (some entry))
        market_id outcome (some entry)).1 = some 0 ∧
    (close_position (record_position rm market_id size_usd outcome "buy" (some entry))
        market_id outcome (some entry)).2.daily_pnl = rm.daily_pnl ∧
    (close_position (record_position rm market_id size_usd outcome "buy" (some entry))
        market_id outcome (some entry)).2.total_exposure = rm.total_exposure := by
  have hlook := lookupVec_recordIn_self market_id
    { market_id := market_id, outcome := outcome, side := "buy",
      size_usd := size_usd, entry_price := entry } rm.positions
  have hrem := removeFirstMatch_append_last outcome
    ((lookupVec market_id rm.positions).getD [])
    { market_id := market_id, outcome := outcome, side := "buy",
      size_usd := size_usd, entry_price := entry } hfresh (by simp)
  have hpnl : (if (0 : ℚ) < entry then (entry - entry) * size_usd / entry else 0) = 0 := by
    by_cases h : (0 : ℚ) < entry <;> simp [h]
  simp [close_position, record_position, hlook, hrem, hpnl]

/-- Witness for C8 at a fresh ledger, market "m", outcome "YES",
size 50, entry price 1/2. -/
theorem claim_C8_works :
    (close_position (record_position (RiskManager.new scenarioRiskConfig) "m" 50 "YES" "buy"
        (some (1 / 2))) "m" "YES" (some (1 / 2))).1 = some 0 ∧
    (close_position (record_position (RiskManager.new scenarioRiskConfig) "m" 50 "YES" "buy"
        (some (1 / 2))) "m" "YES" (some (1 / 2))).2.daily_pnl =
      (RiskManager.new scenarioRiskConfig).daily_pnl ∧
    (close_position (record_position (RiskManager.new scenarioRiskConfig) "m" 50 "YES" "buy"
        (some (1 / 2))) "m" "YES" (some (1 / 2))).2.total_exposure =
      (RiskManager.new scenarioRiskConfig).total_exposure :=
  claim_C8 (RiskManager.new scenarioRiskConfig) "m" "YES" 50 (1 / 2)
    (by simp [RiskManager.new, lookupVec])

/-- A ledger already holding an open YES "buy" position of 100 USD at
entry price 1/2 in market "m". -/
def cexRM : RiskManager :=
  { config := scenarioRiskConfig,
    positions := [("m",
      [{ market_id := "m", outcome := "YES", side := "buy",
         size_usd := 100, entry_price := 1 / 2 }])],
    total_exposure := 100, daily_pnl := 0 }

/-- Counterexample to C8 as stated: from `cexRM` (total exposure 100),
`record_position("m", 50, "YES", "buy", some 2/5)` followed by
`close_position("m", "YES", some 2/5)` closes the pre-existing
position, returning pnl −20 (not 0), pushing daily PnL to −20 and
total exposure to 50 instead of restoring 100. -/
theorem claim_C8_cex :
    (close_position (record_position cexRM "m" 50 "YES" "buy" (some (2 / 5)))
        "m" "YES" (some (2 / 5))).1 = some (-20) ∧
    (close_position (record_position cexRM "m" 50 "YES" "buy" (some (2 / 5)))
        "m" "YES" (some (2 / 5))).2.daily_pnl = -20 ∧
    (close_position (record_position cexRM "m" 50 "YES" "buy" (some (2 / 5)))
        "m" "YES" (some (2 / 5))).2.total_exposure = 50 ∧
    cexRM.total_exposure = 100 := by
  have h05 : (0 : ℚ) < 1 / 2 := by norm_num
  simp [close_position, record_position, cexRM, scenarioRiskConfig, recordIn, lookupVec,
    removeFirstMatch, setVec, h05]
  norm_num

/-! ## Claim C9 -/

/-- Claim C9: in every ledger state reachable by `record_position` /
`close_position` calls from a fresh `RiskManager`, the running
`total_exposure` accumulator equals the sum of `size_usd` over all
stored positions, and `get_exposure`'s `total_exposure_usd` equals
the sum of the values of its per-market exposure map. -/
theorem claim_C9 (cfg : RiskConfig) (rm : RiskManager) (newDay : Bool)
    (h : RiskReachable cfg rm) :
    rm.total_exposure = positionsSum rm.positions ∧
    (get_exposure newDay rm).1.total_exposure_usd =
      ((get_exposure newDay rm).1.market_exposures.map Prod.snd).sum := by
  have hmain : rm.total_exposure = positionsSum rm.positions := by
    induction h with
    | init => simp [RiskManager.new, positionsSum]
    | record rm' market_id size_usd outcome side entry_price _ ih =>
      simp [record_position, positionsSum_recordIn, ih]
    | close rm' market_id outcome exit_price _ ih =>
      cases hl : lookupVec market_id rm'.positions with
      | none => simpa [close_position, hl] using ih
      | some vec =>
        cases hr : removeFirstMatch outcome vec with
        | none => simpa [close_position, hl, hr] using ih
        | some pr =>
          obtain ⟨p, rest⟩ := pr
          have hsum := removeFirstMatch_sum outcome vec p rest hr
          have hset := positionsSum_setVec market_id rest vec rm'.positions hl
          simp [close_position, hl, hr, hset, ih]
          linarith
  refine ⟨hmain, ?_⟩
  have hsum : ∀ ps : List (String × List Position),
      (List.map (Prod.snd ∘ fun e => (e.1, (List.map Position.size_usd e.2).sum)) ps).sum
        = positionsSum ps := by
    intro ps
    induction ps with
    | nil => simp [positionsSum]
    | cons e rest ih => simp [positionsSum_cons, ih]
  cases newDay <;> simp [get_exposure, hmain, hsum]

/-- Witness for C9 at the freshly created ledger. -/
theorem claim_C9_works :
    (RiskManager.new scenarioRiskConfig).total_exposure =
      positionsSum (RiskManager.new scenarioRiskConfig).positions ∧
    (get_exposure false (RiskManager.new scenarioRiskConfig)).1.total_exposure_usd =
      ((get_exposure false
          (RiskManager.new scenarioRiskConfig)).1.market_exposures.map Prod.snd).sum :=
  claim_C9 scenarioRiskConfig (RiskManager.new scenarioRiskConfig) false RiskReachable.init

/-! ## Helper lemmas about the opportunity map -/

theorem lookupOpp_insertOpp_self (k : String) (opp : ArbitrageOpportunity)
    (l : List (String × ArbitrageOpportunity)) :
    lookupOpp k (insertOpp k opp l) = some opp := by
  induction l with
  | nil => simp [insertOpp, lookupOpp]
  | cons e rest ih =>
    obtain ⟨k', v⟩ := e
    by_cases h : k' = k
    · simp [insertOpp, h, lookupOpp]
    · simp [insertOpp, h, lookupOpp, ih]

theorem lookupOpp_insertOpp_ne (k k' : String) (opp : ArbitrageOpportunity)
    (l : List (String × ArbitrageOpportunity)) (h : k' ≠ k) :
    lookupOpp k' (insertOpp k opp l) = lookupOpp k' l := by
  have h' : k ≠ k' := Ne.symm h
  induction l with
  | nil => simp [insertOpp, lookupOpp, h']
  | cons e rest ih =>
    obtain ⟨k2, v⟩ := e
    by_cases h2 : k2 = k
    · subst h2
      simp [insertOpp, lookupOpp, h']
    · simp [insertOpp, lookupOpp, h2, ih]

/-- If the detection step yields an opportunity, internal arbitrage is
enabled and the opportunity passes the validity gate, then
`scan_market` returns it. -/
theorem scan_market_of_detect (cfg : ArbitrageConfig) (market_id : String) (ob : OrderBook)
    (opp : ArbitrageOpportunity)
    (hdet : detect_internal_arbitrage market_id ob = some opp)
    (hen : cfg.internal_arb_enabled = true)
    (hval : is_valid cfg opp = true) :
    scan_market cfg market_id (some ob) = some opp := by
  unfold scan_market
  simp [hdet, hen, hval]

/-- If the detection step yields an opportunity failing the validity
gate, `scan_market` returns none. -/
theorem scan_market_none_of_invalid (cfg : ArbitrageConfig) (market_id : String)
    (ob : OrderBook) (opp : ArbitrageOpportunity)
    (hdet : detect_internal_arbitrage market_id ob = some opp)
    (hval : is_valid cfg opp = false) :
    scan_market cfg market_id (some ob) = none := by
  unfold scan_market
  cases hen : cfg.internal_arb_enabled <;>
    simp [hdet, hval, detect_cross_platform_arbitrage]

/-! ## Claim C3 -/

/-- Claim C3 (amended): with best asks `ya`, `na` on both outcomes,
(1) whenever `ya.price + na.price ≥ 0.99 / 1.01` the scan of the
market yields no opportunity; (2) whenever
`(ya.price + na.price) × 1.01 < 0.99` the detection step yields an
opportunity with `profit_pct = (1 − fee_adjusted_cost) / fee_adjusted_cost`,
`profit_usd = profit_pct`, and per-outcome liquidity = best-ask size ×
best-ask price — and the scan returns exactly this opportunity
provided internal arbitrage is enabled and the opportunity passes the
`is_valid` gate (the gate is forced: `scan_market` drops detected
opportunities that fail the runtime validity thresholds). -/
theorem claim_C3 (cfg : ArbitrageConfig) (market_id : String) (ob : OrderBook) (ya na : Ask)
    (hy : get_best_ask ob.yes_asks = some ya)
    (hn : get_best_ask ob.no_asks = some na) :
    (99 / 101 ≤ ya.price + na.price → scan_market cfg market_id (some ob) = none) ∧
    ((ya.price + na.price) * (101 / 100) < 99 / 100 →
      ∃ opp, detect_internal_arbitrage market_id ob = some opp ∧
        opp.profit_pct = (1 - (ya.price + na.price) * (101 / 100)) /
          ((ya.price + na.price) * (101 / 100)) ∧
        opp.profit_usd = opp.profit_pct ∧
        opp.liquidity_yes = ya.size.getD 0 * ya.price ∧
        opp.liquidity_no = na.size.getD 0 * na.price ∧
        (cfg.internal_arb_enabled = true → is_valid cfg opp = true →
          scan_market cfg market_id (some ob) = some opp)) := by
  constructor
  · intro h
    have hmul := mul_le_mul_of_nonneg_right h (by norm_num : (0 : ℚ) ≤ 101 / 100)
    have hnotlt : ¬ (ya.price + na.price) * (101 / 100) < 99 / 100 := by
      rw [not_lt]
      calc (99 : ℚ) / 100 = 99 / 101 * (101 / 100) := by norm_num
        _ ≤ (ya.price + na.price) * (101 / 100) := hmul
    have hdet : detect_internal_arbitrage market_id ob = none := by
      unfold detect_internal_arbitrage
      rw [hy, hn]
      simp [hnotlt]
    simp [scan_market, hdet, detect_cross_platform_arbitrage]
  · intro h
    have hdet : detect_internal_arbitrage market_id ob = some
        { market_id := market_id,
          market_question := ob.market_question.getD market_id,
          opportunity_type := "internal",
          yes_price := ya.price, no_price := na.price,
          total_cost := ya.price + na.price,
          profit_pct := (1 - (ya.price + na.price) * (101 / 100)) /
            ((ya.price + na.price) * (101 / 100)),
          profit_usd := (1 - (ya.price + na.price) * (101 / 100)) /
            ((ya.price + na.price) * (101 / 100)) * 1,
          liquidity_yes := ya.size.getD 0 * ya.price,
          liquidity_no := na.size.getD 0 * na.price } := by
      unfold detect_internal_arbitrage
      rw [hy, hn]
      simp [h]
    exact ⟨_, hdet, rfl, by simp, rfl, rfl,
      fun hen hval => scan_market_of_detect cfg market_id ob _ hdet hen hval⟩

/-- An order book whose two best asks sum to 0.97 USD with deep size,
yielding a valid internal arbitrage under the default thresholds. -/
def goodBook : OrderBook :=
  { yes_asks := [{ price := 97 / 200, size := some 10000 }],
    no_asks := [{ price := 97 / 200, size := some 10000 }],
    market_question := some "q" }

/-- The default arbitrage thresholds of `load_config`:
profit within [1%, 5%], liquidity floor 1000 USD. -/
def defaultArbConfig : ArbitrageConfig :=
  { min_arb_profit_pct := 1 / 100, max_arb_profit_pct := 1 / 20,
    internal_arb_enabled := true, cross_platform_enabled := false,
    min_liquidity_usd := 1000, max_slippage_pct := 1 / 50 }

/-- Witness for C3: on `goodBook` (asks 0.485 + 0.485) the detection
step fires and `scan_market` with the default thresholds returns its
opportunity. -/
theorem claim_C3_works :
    ∃ opp, detect_internal_arbitrage "m" goodBook = some opp ∧
      scan_market defaultArbConfig "m" (some goodBook) = some opp := by
  obtain ⟨opp, hdet, hpct, husd, hly, hln, hscan⟩ :=
    (claim_C3 defaultArbConfig "m" goodBook
      { price := 97 / 200, size := some 10000 }
      { price := 97 / 200, size := some 10000 } rfl rfl).2 (by norm_num)
  refine ⟨opp, hdet, hscan rfl ?_⟩
  have h1 : ¬ opp.profit_pct < defaultArbConfig.min_arb_profit_pct := by
    rw [hpct]; norm_num [defaultArbConfig]
  have h2 : ¬ opp.profit_pct > defaultArbConfig.max_arb_profit_pct := by
    rw [hpct]; norm_num [defaultArbConfig]
  have h3 : ¬ opp.liquidity_yes < defaultArbConfig.min_liquidity_usd := by
    rw [hly]; norm_num [defaultArbConfig]
  have h4 : ¬ opp.liquidity_no < defaultArbConfig.min_liquidity_usd := by
    rw [hln]; norm_num [defaultArbConfig]
  simp [is_valid, h1, h2, h3, h4]

/-- A configuration demanding at least 100% profit: any realistic
internal arbitrage fails its validity gate. -/
def strictArbConfig : ArbitrageConfig :=
  { min_arb_profit_pct := 1, max_arb_profit_pct := 2,
    internal_arb_enabled := true, cross_platform_enabled := false,
    min_liquidity_usd := 0, max_slippage_pct := 1 / 50 }

/-- An order book with best asks 0.40 + 0.40, well below the
arbitrage threshold. -/
def cheapBook : OrderBook :=
  { yes_asks := [{ price := 2 / 5, size := some 10 }],
    no_asks := [{ price := 2 / 5, size := some 10 }],
    market_question := none }

/-- Counterexample to C3 as stated: on `cheapBook`,
`(yes_ask + no_ask) × 1.01 = 0.808 < 0.99`, yet `scan_market` under
`strictArbConfig` (internal arbitrage enabled) returns none, because
the detected opportunity fails the validity gate. -/
theorem claim_C3_cex :
    ((2 / 5 : ℚ) + 2 / 5) * (101 / 100) < 99 / 100 ∧
    strictArbConfig.internal_arb_enabled = true ∧
    scan_market strictArbConfig "m" (some cheapBook) = none := by
  refine ⟨by norm_num, rfl, ?_⟩
  have hlt : ((2 / 5 : ℚ) + 2 / 5) * (101 / 100) < 99 / 100 := by norm_num
  have hdet : detect_internal_arbitrage "m" cheapBook = some
      { market_id := "m", market_question := "m", opportunity_type := "internal",
        yes_price := 2 / 5, no_price := 2 / 5, total_cost := 2 / 5 + 2 / 5,
        profit_pct := (1 - (2 / 5 + 2 / 5) * (101 / 100)) / ((2 / 5 + 2 / 5) * (101 / 100)),
        profit_usd := (1 - (2 / 5 + 2 / 5) * (101 / 100)) /
          ((2 / 5 + 2 / 5) * (101 / 100)) * 1,
        liquidity_yes := 10 * (2 / 5), liquidity_no := 10 * (2 / 5) } := by
    unfold detect_internal_arbitrage
    simp [cheapBook, get_best_ask, hlt]
  have hinvalid : is_valid strictArbConfig
      { market_id := "m", market_question := "m", opportunity_type := "internal",
        yes_price := 2 / 5, no_price := 2 / 5, total_cost := 2 / 5 + 2 / 5,
        profit_pct := (1 - (2 / 5 + 2 / 5) * (101 / 100)) / ((2 / 5 + 2 / 5) * (101 / 100)),
        profit_usd := (1 - (2 / 5 + 2 / 5) * (101 / 100)) /
          ((2 / 5 + 2 / 5) * (101 / 100)) * 1,
        liquidity_yes := 10 * (2 / 5), liquidity_no := 10 * (2 / 5) } = false := by
    have hp : ((1 : ℚ) - (2 / 5 + 2 / 5) * (101 / 100)) / ((2 / 5 + 2 / 5) * (101 / 100)) <
        strictArbConfig.min_arb_profit_pct := by
      norm_num [strictArbConfig]
    simp [is_valid, hp]
  exact scan_market_none_of_invalid strictArbConfig "m" cheapBook _ hdet hinvalid

/-! ## Claim C4 -/

/-- Claim C4 (amended): `has_opportunity` re-validates the retained
opportunity against the current thresholds on each read — it is true
exactly when a retained opportunity exists and passes `is_valid` —
but `get_opportunity` is a plain lookup: it returns the retained
opportunity regardless of the current validity thresholds (its result
does not depend on the config at all). -/
theorem claim_C4 (d : ArbitrageDetector) (market_id : String) :
    (has_opportunity d market_id = true ↔
      ∃ opp, get_opportunity d market_id = some opp ∧ is_valid d.config opp = true) ∧
    (∀ cfg' : ArbitrageConfig,
      get_opportunity { config := cfg', active_opportunities := d.active_opportunities }
        market_id = get_opportunity d market_id) := by
  constructor
  · cases hl : lookupOpp market_id d.active_opportunities <;>
      simp [has_opportunity, get_opportunity, hl]
  · intro cfg'
    rfl

/-- A retained opportunity that fails `strictArbConfig`'s validity
gate (profit 24/101 &lt; required minimum 1). -/
def staleOpp : ArbitrageOpportunity :=
  { market_id := "m", market_question := "q", opportunity_type := "internal",
    yes_price := 2 / 5, no_price := 2 / 5, total_cost := 4 / 5,
    profit_pct := 24 / 101, profit_usd := 24 / 101,
    liquidity_yes := 4, liquidity_no := 4 }

/-- A detector whose retained map holds `staleOpp`, invalid under the
current (strict) thresholds. -/
def staleDetector : ArbitrageDetector :=
  { config := strictArbConfig, active_opportunities := [("m", staleOpp)] }

/-- Counterexample to C4 as stated: `get_opportunity` returns
`some staleOpp` although the retained opportunity fails the current
validity gate (`is_valid` is false and `has_opportunity` agrees). -/
theorem claim_C4_cex :
    get_opportunity staleDetector "m" = some staleOpp ∧
    is_valid staleDetector.config staleOpp = false ∧
    has_opportunity staleDetector "m" = false := by
  have hp : staleOpp.profit_pct < strictArbConfig.min_arb_profit_pct := by
    norm_num [staleOpp, strictArbConfig]
  have hv : is_valid strictArbConfig staleOpp = false := by
    simp [is_valid, hp]
  refine ⟨by simp [get_opportunity, staleDetector, lookupOpp], hv, ?_⟩
  simp [has_opportunity, staleDetector, lookupOpp, hv]

/-! ## Claim C5 -/

/-- Claim C5 (amended): after `scan_markets(ids)`, the retained entry
for a market equals the (deterministic) result of scanning it
whenever that scan found a valid opportunity — the last scan replaces
any prior entry — and is the *prior* entry otherwise: a scan that
finds no valid opportunity leaves any previously retained opportunity
in place (no eviction), contrary to the claimed
"superseded with no opportunity" behaviour. -/
theorem claim_C5 (books : String → Option OrderBook) (d : ArbitrageDetector)
    (ids : List String) (market_id : String) :
    get_opportunity (scan_markets books d ids).1 market_id =
      if market_id ∈ ids ∧ (scan_market d.config market_id (books market_id)).isSome = true
      then scan_market d.config market_id (books market_id)
      else get_opportunity d market_id := by
  induction ids generalizing d with
  | nil => simp [scan_markets]
  | cons id rest ih =>
    cases hs : scan_market d.config id (books id) with
    | some opp =>
      have hstep : (scan_markets books d (id :: rest)).1 =
          (scan_markets books
            { d with active_opportunities := insertOpp id opp d.active_opportunities }
            rest).1 := by
        simp [scan_markets, hs]
      rw [hstep, ih]
      by_cases heq : market_id = id
      · subst heq
        by_cases hin : market_id ∈ rest
        · simp [hin, hs, get_opportunity, lookupOpp_insertOpp_self]
        · simp [hin, hs, get_opportunity, lookupOpp_insertOpp_self]
      · have hlook : lookupOpp market_id (insertOpp id opp d.active_opportunities) =
            lookupOpp market_id d.active_opportunities :=
          lookupOpp_insertOpp_ne id market_id opp d.active_opportunities heq
        by_cases hin : market_id ∈ rest
        · simp [hin, heq, get_opportunity, hlook]
        · simp [hin, heq, get_opportunity, hlook]
    | none =>
      have hstep : (scan_markets books d (id :: rest)).1 = (scan_markets books d rest).1 := by
        simp [scan_markets, hs]
      rw [hstep, ih]
      by_cases heq : market_id = id
      · subst heq
        by_cases hin : market_id ∈ rest
        · simp [hin, hs]
        · simp [hin, hs]
      · by_cases hin : market_id ∈ rest
        · simp [hin, heq]
        · simp [hin, heq]

/-- Counterexample to C5 as stated: scanning `["m"]` when the scan
finds no opportunity (no order book at all) leaves the previously
retained opportunity in the map instead of evicting it. -/
theorem claim_C5_cex :
    scan_market staleDetector.config "m" ((fun _ => none) "m") = none ∧
    get_opportunity (scan_markets (fun _ => none) staleDetector ["m"]).1 "m" =
      some staleOpp := by
  refine ⟨rfl, ?_⟩
  simp [scan_markets, scan_market, get_opportunity, staleDetector, lookupOpp]

/-! ## Claim C1 -/

/-- Claim C1: in `execute_arbitrage_trade`, (1) if both leg placements
return an order, both half-size positions (YES at `yes_price`, NO at
`no_price`) are appended to the market's ledger vector, total
exposure grows by the full sized amount, nothing is cancelled and the
execution reports success; (2)/(3) if exactly one leg's placement
fails, cancellation of the succeeded leg's order is attempted, the
Risk Ledger is unchanged and the execution reports failure. -/
theorem claim_C1 (exec : Exec) (rm : RiskManager) (arb_opp : ArbitrageOpportunity)
    (position_size_usd : ℚ) :
    ((exec (yesLegReq arb_opp position_size_usd)).isSome = true →
     (exec (noLegReq arb_opp position_size_usd)).isSome = true →
      (execute_arbitrage_trade exec rm arb_opp position_size_usd).success = true ∧
      lookupVec arb_opp.market_id
          (execute_arbitrage_trade exec rm arb_opp position_size_usd).risk.positions =
        some ((lookupVec arb_opp.market_id rm.positions).getD [] ++
          [{ market_id := arb_opp.market_id, outcome := "YES", side := "buy",
             size_usd := position_size_usd * (1 / 2), entry_price := arb_opp.yes_price },
           { market_id := arb_opp.market_id, outcome := "NO", side := "buy",
             size_usd := position_size_usd * (1 / 2), entry_price := arb_opp.no_price }]) ∧
      (execute_arbitrage_trade exec rm arb_opp position_size_usd).risk.total_exposure =
        rm.total_exposure + position_size_usd ∧
      (execute_arbitrage_trade exec rm arb_opp position_size_usd).effects.cancels = []) ∧
    (∀ oy : Order, exec (yesLegReq arb_opp position_size_usd) = some oy →
      exec (noLegReq arb_opp position_size_usd) = none →
      (execute_arbitrage_trade exec rm arb_opp position_size_usd).success = false ∧
      (execute_arbitrage_trade exec rm arb_opp position_size_usd).risk = rm ∧
      (execute_arbitrage_trade exec rm arb_opp position_size_usd).effects.cancels =
        [oy.order_id]) ∧
    (∀ ono : Order, exec (yesLegReq arb_opp position_size_usd) = none →
      exec (noLegReq arb_opp position_size_usd) = some ono →
      (execute_arbitrage_trade exec rm arb_opp position_size_usd).success = false ∧
      (execute_arbitrage_trade exec rm arb_opp position_size_usd).risk = rm ∧
      (execute_arbitrage_trade exec rm arb_opp position_size_usd).effects.cancels =
        [ono.order_id]) := by
  refine ⟨fun hy hn => ?_, fun oy hy hn => ?_, fun ono hy hn => ?_⟩
  · have hboth : (exec (yesLegReq arb_opp position_size_usd)).isSome = true ∧
        (exec (noLegReq arb_opp position_size_usd)).isSome = true := ⟨hy, hn⟩
    refine ⟨?_, ?_, ?_, ?_⟩
    · simp [execute_arbitrage_trade, hy, hn]
    · simp [execute_arbitrage_trade, hy, hn, record_position, lookupVec_recordIn_self]
    · simp [execute_arbitrage_trade, hy, hn, record_position]
      ring
    · simp [execute_arbitrage_trade, hy, hn]
  · simp [execute_arbitrage_trade, hy, hn]
  · simp [execute_arbitrage_trade, hy, hn]

/-- A placement oracle that accepts the YES leg and rejects the NO leg. -/
def yesOnlyExec : Exec :=
  fun req => if req.outcome = "YES" then some { order_id := "y1" } else none

/-- Witness for C1: with `yesOnlyExec`, the NO leg fails, the YES
order "y1" is cancelled, the ledger is unchanged and the trade
reports failure. -/
theorem claim_C1_works :
    (execute_arbitrage_trade yesOnlyExec cexRM staleOpp 10).success = false ∧
    (execute_arbitrage_trade yesOnlyExec cexRM staleOpp 10).risk = cexRM ∧
    (execute_arbitrage_trade yesOnlyExec cexRM staleOpp 10).effects.cancels = ["y1"] :=
  (claim_C1 yesOnlyExec cexRM staleOpp 10).2.1 { order_id := "y1" }
    (by simp [yesOnlyExec, yesLegReq]) (by simp [yesOnlyExec, noLegReq])

/-! ## Claim C6 -/

/-- Claim C6 (amended): (1) every `WalletTrade` the normalizer
constructs satisfies outcome ∈ {YES, NO}, side ∈ {buy, sell} and
price > 0, and failures produce `none` rather than an error;
(2) a record with a missing market id is dropped; but (3) missing
outcome / side / question / timestamp fields are substituted with
defaults (`YES`, `buy`, `""`, now) rather than dropped: a record with
missing outcome and side still parses whenever its price is positive. -/
theorem claim_C6 (config : WalletConfig) (now : Int) (trade_data : RawTradeRecord) :
    (∀ wt : WalletTrade, parse_trade config now trade_data = some wt →
      (wt.outcome = "YES" ∨ wt.outcome = "NO") ∧
      (wt.side = "buy" ∨ wt.side = "sell") ∧ 0 < wt.price) ∧
    (trade_data.marketId = none → parse_trade config now trade_data = none) ∧
    (∀ mid : String, trade_data.marketId = some mid → trade_data.outcome = none →
      trade_data.side = none → 0 < trade_data.price.getD 0 →
      (parse_trade config now trade_data).isSome = true) := by
  refine ⟨fun wt h => ?_, fun h => by simp [parse_trade, h], fun mid hm ho hs hp => ?_⟩
  · unfold parse_trade at h
    cases hmid : trade_data.marketId with
    | none => simp only [hmid] at h; cases h
    | some mid =>
      simp only [hmid] at h
      split at h
      next hcond => cases h
      next hcond =>
        have hout := not_not.mp (not_or.mp hcond).1
        have hrest := (not_or.mp hcond).2
        have hside := not_not.mp (not_or.mp hrest).1
        have hprice := (not_or.mp hrest).2
        obtain rfl := Option.some.inj h
        exact ⟨hout, hside, lt_of_not_le hprice⟩
  · have hup : strToUpper "YES" = "YES" := rfl
    have hlo : strToLower "buy" = "buy" := rfl
    have hple : ¬ trade_data.price.getD 0 ≤ 0 := not_le.mpr hp
    simp [parse_trade, hm, ho, hs, hup, hlo, hple]

/-- The wallet configuration used by the concrete trading fixtures. -/
def copyCfg : WalletConfig :=
  { address := "0xabc", name := "w", enabled := true, min_win_rate := 7 / 10,
    max_position_size_usd := 2000, position_size_multiplier := 1,
    markets_filter := none, require_arb_signal := false }

/-- A raw record with market id and positive price but no outcome and
no side fields. -/
def bareRecord : RawTradeRecord :=
  { marketId := some "m", question := none, outcome := none, side := none,
    price := some (1 / 2), size := some 10, timestamp := none, txHash := none }

/-- Witness for C6 at `bareRecord`. -/
theorem claim_C6_works : (parse_trade copyCfg 0 bareRecord).isSome = true :=
  (claim_C6 copyCfg 0 bareRecord).2.2 "m" rfl rfl rfl (by norm_num [bareRecord])

/-- Counterexample to C6 as stated: `bareRecord` has no outcome field
(and no side field), yet the normalizer does not drop it — it
constructs a trade with the substituted defaults outcome "YES",
side "buy". -/
theorem claim_C6_cex :
    bareRecord.outcome = none ∧
    parse_trade copyCfg 0 bareRecord = some
      { wallet_address := "0xabc", wallet_name := "w", market_id := "m",
        market_question := "", outcome := "YES", side := "buy",
        price := 1 / 2, size := 10, size_usd := 5, timestamp := 0, tx_hash := none } := by
  have hup : strToUpper "YES" = "YES" := rfl
  have hlo : strToLower "buy" = "buy" := rfl
  have hple : ¬ ((1 : ℚ) / 2) ≤ 0 := by norm_num
  refine ⟨rfl, ?_⟩
  simp [parse_trade, bareRecord, copyCfg, hup, hlo, hple]
  norm_num

/-! ## Claims C7 and C10 -/

/-- A delivery whose dedup key is already marked is dropped outright:
no gate runs, no order is placed, nothing changes. -/
theorem process_trade_of_mem (exec : Exec) (detector : ArbitrageDetector)
    (rm : RiskManager) (ct : CopyTrader) (trade : WalletTrade)
    (h : trade_key trade ∈ ct.copied_trades) :
    process_trade exec detector rm ct trade =
      { success := false, trader := ct, risk := rm, effects := TradeEffects.none } := by
  unfold process_trade
  simp [h]

/-- `process_trade` either fails and leaves the dedup set unchanged,
or succeeds and marks exactly the trade's dedup key. -/
theorem process_trade_cases (exec : Exec) (detector : ArbitrageDetector)
    (rm : RiskManager) (ct : CopyTrader) (trade : WalletTrade) :
    ((process_trade exec detector rm ct trade).success = false ∧
      (process_trade exec detector rm ct trade).trader = ct) ∨
    ((process_trade exec detector rm ct trade).success = true ∧
      (process_trade exec detector rm ct trade).trader =
        { ct with copied_trades := trade_key trade :: ct.copied_trades }) := by
  unfold process_trade
  by_cases h1 : trade_key trade ∈ ct.copied_trades
  · simp [h1]
  · by_cases h2 : should_copy_wallet ct trade = false
    · simp [h1, h2]
    · by_cases h3 : passes_markets_filter ct trade = false
      · simp [h1, h2, h3]
      · by_cases h4 : arb_signal_blocks ct detector trade = true
        · simp [h1, h2, h3, h4]
        · by_cases h5 : calculate_position_size ct trade ≤ 0
          · simp [h1, h2, h3, h4, h5]
          · by_cases h6 : can_open_position rm trade.market_id
                (calculate_position_size ct trade) = false
            · simp [h1, h2, h3, h4, h5, h6]
            · by_cases h7 : (execute_copy_trade exec detector rm ct trade
                  (calculate_position_size ct trade)).success = true
              · simp [h1, h2, h3, h4, h5, h6, h7]
              · simp [h1, h2, h3, h4, h5, h6, h7]

/-- Claim C7 (amended): once a delivery of a trade succeeds, any later
delivery of a trade with the same dedup key to that trader is dropped
at the dedup step — it reports failure, places no order and leaves
both the trader and the ledger unchanged — so a successful delivery
is copied exactly once; but a failed delivery does not mark the dedup
key (the trader state is unchanged), so a redelivery after a failure
attempts placement again. -/
theorem claim_C7 (exec exec2 : Exec) (detector detector2 : ArbitrageDetector)
    (rm rm2 : RiskManager) (ct : CopyTrader) (trade : WalletTrade) :
    ((process_trade exec detector rm ct trade).success = true →
      (process_trade exec2 detector2 rm2
          (process_trade exec detector rm ct trade).trader trade).success = false ∧
      (process_trade exec2 detector2 rm2
          (process_trade exec detector rm ct trade).trader trade).effects.placements = [] ∧
      (process_trade exec2 detector2 rm2
          (process_trade exec detector rm ct trade).trader trade).trader =
        (process_trade exec detector rm ct trade).trader ∧
      (process_trade exec2 detector2 rm2
          (process_trade exec detector rm ct trade).trader trade).risk = rm2) ∧
    ((process_trade exec detector rm ct trade).success = false →
      (process_trade exec detector rm ct trade).trader = ct) := by
  constructor
  · intro h
    rcases process_trade_cases exec detector rm ct trade with ⟨hf, _⟩ | ⟨_, ht⟩
    · rw [hf] at h; cases h
    · have hmem : trade_key trade ∈
          (process_trade exec detector rm ct trade).trader.copied_trades := by
        rw [ht]; simp
      rw [process_trade_of_mem exec2 detector2 rm2 _ trade hmem]
      exact ⟨rfl, rfl, rfl, rfl⟩
  · intro h
    rcases process_trade_cases exec detector rm ct trade with ⟨_, ht⟩ | ⟨hs, _⟩
    · exact ht
    · rw [hs] at h; cases h

/-- Claim C10: two distinct trades both lacking a tx hash and sharing
market id, outcome and side collide on the dedup key (the hash
component defaults to ""), so once the first is processed
successfully the second is dropped as a duplicate: it reports failure
without placing any order and leaves the ledger untouched. -/
theorem claim_C10 (exec exec2 : Exec) (detector detector2 : ArbitrageDetector)
    (rm rm2 : RiskManager) (ct : CopyTrader) (t1 t2 : WalletTrade)
    (h1 : t1.tx_hash = none) (h2 : t2.tx_hash = none)
    (hm : t2.market_id = t1.market_id) (ho : t2.outcome = t1.outcome)
    (hs : t2.side = t1.side)
    (hsucc : (process_trade exec detector rm ct t1).success = true) :
    (process_trade exec2 detector2 rm2
        (process_trade exec detector rm ct t1).trader t2).success = false ∧
    (process_trade exec2 detector2 rm2
        (process_trade exec detector rm ct t1).trader t2).effects.placements = [] ∧
    (process_trade exec2 detector2 rm2
        (process_trade exec detector rm ct t1).trader t2).risk = rm2 := by
  have hkey : trade_key t2 = trade_key t1 := by
    unfold trade_key
    rw [h1, h2, hm, ho, hs]
  rcases process_trade_cases exec detector rm ct t1 with ⟨hf, _⟩ | ⟨_, ht⟩
  · rw [hf] at hsucc; cases hsucc
  · have hmem : trade_key t2 ∈
        (process_trade exec detector rm ct t1).trader.copied_trades := by
      rw [ht, hkey]; simp
    rw [process_trade_of_mem exec2 detector2 rm2 _ t2 hmem]
    exact ⟨rfl, rfl, rfl⟩

/-! ## Concrete trading fixtures for C7 / C10 -/

/-- A detector with no retained opportunities. -/
def emptyDetector : ArbitrageDetector :=
  { config := defaultArbConfig, active_opportunities := [] }

/-- A placement oracle that accepts every request. -/
def acceptAllExec : Exec := fun _ => some { order_id := "o1" }

/-- A placement oracle that rejects every request. -/
def rejectAllExec : Exec := fun _ => none

/-- A fresh copy trader (no dedup keys marked) for `copyCfg`. -/
def freshTrader : CopyTrader := { config := copyCfg, copied_trades := [] }

/-- A fresh risk ledger under the scenario caps. -/
def freshRisk : RiskManager := RiskManager.new scenarioRiskConfig

/-- An observed trade without a transaction hash. -/
def tA : WalletTrade :=
  { wallet_address := "0xdef", wallet_name := "t", market_id := "m",
    market_question := "q", outcome := "YES", side := "buy",
    price := 1 / 2, size := 200, size_usd := 100, timestamp := 0, tx_hash := none }

/-- A second, distinct observed trade (different size), also without a
transaction hash, in the same market / outcome / side as `tA`. -/
def tB : WalletTrade := { tA with size := 100, size_usd := 50 }

/-- The directional order request `process_trade` builds for `tA`
(100 USD at price 0.5 is 200 shares). -/
def tAReq : OrderReq :=
  { market_id := "m", outcome := "YES", side := "buy", price := 1 / 2, size := 200 }

theorem freshTrader_not_copied : ¬ trade_key tA ∈ freshTrader.copied_trades := by
  simp [freshTrader]

theorem freshTrader_should_copy : should_copy_wallet freshTrader tA = true := by
  simp [should_copy_wallet, freshTrader, copyCfg]

theorem freshTrader_filter : passes_markets_filter freshTrader tA = true := by
  simp [passes_markets_filter, freshTrader, copyCfg]

theorem freshTrader_arb : arb_signal_blocks freshTrader emptyDetector tA = false := by
  simp [arb_signal_blocks, freshTrader, copyCfg]

theorem tA_size : calculate_position_size freshTrader tA = 100 := by
  norm_num [calculate_position_size, freshTrader, copyCfg, tA, min_def]

theorem tA_size_pos : ¬ calculate_position_size freshTrader tA ≤ 0 := by
  rw [tA_size]; norm_num

theorem tA_can_open : can_open_position freshRisk tA.market_id
    (calculate_position_size freshTrader tA) = true := by
  rw [tA_size]
  norm_num [can_open_position, freshRisk, RiskManager.new, scenarioRiskConfig,
    marketExposure, lookupVec, tA]

/-- The first delivery of `tA` through an accepting executor succeeds. -/
theorem firstDeliverySucceeds :
    (process_trade acceptAllExec emptyDetector freshRisk freshTrader tA).success = true := by
  have hexec : (execute_copy_trade acceptAllExec emptyDetector freshRisk freshTrader tA
      (calculate_position_size freshTrader tA)).success = true := by
    simp [execute_copy_trade, freshTrader, copyCfg, acceptAllExec]
  unfold process_trade
  simp [freshTrader_not_copied, freshTrader_should_copy, freshTrader_filter,
    freshTrader_arb, tA_size_pos, tA_can_open, hexec]

/-- A delivery of `tA` through a rejecting executor fails after one
placement attempt and changes neither the trader nor the ledger. -/
theorem firstDeliveryFails :
    process_trade rejectAllExec emptyDetector freshRisk freshTrader tA =
      { success := false, trader := freshTrader, risk := freshRisk,
        effects := { placements := [tAReq], cancels := [] } } := by
  have hexec : execute_copy_trade rejectAllExec emptyDetector freshRisk freshTrader tA
      (calculate_position_size freshTrader tA) =
      { success := false, risk := freshRisk,
        effects := { placements := [tAReq], cancels := [] } } := by
    rw [tA_size]
    simp [execute_copy_trade, freshTrader, copyCfg, rejectAllExec, tAReq, tA]
    norm_num
  unfold process_trade
  simp [freshTrader_not_copied, freshTrader_should_copy, freshTrader_filter,
    freshTrader_arb, tA_size_pos, tA_can_open, hexec]

/-- Witness for C7: after the successful delivery of `tA`, redelivering
`tA` is dropped at the dedup step with no placement. -/
theorem claim_C7_works :
    (process_trade rejectAllExec emptyDetector freshRisk
        (process_trade acceptAllExec emptyDetector freshRisk freshTrader tA).trader
        tA).success = false ∧
    (process_trade rejectAllExec emptyDetector freshRisk
        (process_trade acceptAllExec emptyDetector freshRisk freshTrader tA).trader
        tA).effects.placements = [] := by
  have h := (claim_C7 acceptAllExec rejectAllExec emptyDetector emptyDetector
    freshRisk freshRisk freshTrader tA).1 firstDeliverySucceeds
  exact ⟨h.1, h.2.1⟩

/-- Counterexample to C7 as stated: when the first delivery's
placement fails, the dedup key is not marked and nothing changes, so
the identical second delivery attempts placement again — two
placement attempts in total, and the second delivery is not dropped
at the dedup step. -/
theorem claim_C7_cex :
    (process_trade rejectAllExec emptyDetector freshRisk freshTrader tA).success = false ∧
    (process_trade rejectAllExec emptyDetector freshRisk freshTrader
        tA).effects.placements.length = 1 ∧
    (process_trade rejectAllExec emptyDetector
        (process_trade rejectAllExec emptyDetector freshRisk freshTrader tA).risk
        (process_trade rejectAllExec emptyDetector freshRisk freshTrader tA).trader
        tA).effects.placements.length = 1 := by
  refine ⟨?_, ?_, ?_⟩ <;> simp [firstDeliveryFails]

/-- Witness for C10: after the successful delivery of the hashless
`tA`, the distinct hashless trade `tB` (same market, outcome and
side) is dropped as a duplicate without any placement. -/
theorem claim_C10_works :
    (process_trade rejectAllExec emptyDetector freshRisk
        (process_trade acceptAllExec emptyDetector freshRisk freshTrader tA).trader
        tB).success = false ∧
    (process_trade rejectAllExec emptyDetector freshRisk
        (process_trade acceptAllExec emptyDetector freshRisk freshTrader tA).trader
        tB).effects.placements = [] := by
  have h := claim_C10 acceptAllExec rejectAllExec emptyDetector emptyDetector
    freshRisk freshRisk freshTrader tA tB rfl rfl rfl rfl rfl firstDeliverySucceeds
  exact ⟨h.1, h.2.1⟩

end CopyBot
